import Mathlib

/-!
Verification of the execo-g5k-tools parameter-sweep dispatcher
(`src/engines/simgrid_paasage/paassage_simu.py`) and the storage benchmark
script (`src/admin/benchmark_storage5k/prototype.py`).

The sweeper (`ParamSweeper`, `sweep`) comes from the external `execo_engine`
library, whose source is not part of this repository; it is modelled from the
specification's description of the Sweep Queue and its operations.  The
dispatch loop of `paassage_simu.run` is embedded faithfully from the Python
source, with the external world (job aliveness, thread termination, workflow
outcome) supplied by an oracle.
-/

/-- A combination: an assignment of a value to every sweep parameter,
as a finite association list from parameter name to value. -/
abbrev Comb : Type := List (String × Nat)

instance : BEq Comb := instBEqOfDecidableEq

/-- Modelled from the spec: `sweep` from `execo_engine` (not in the repository
source) produces "the full Cartesian product of each parameter's allowed value
range", one combination per assignment of a value to every parameter. -/
def sweep : List (String × List Nat) → List Comb
  | [] => [[]]
  | (name, vals) :: rest =>
    (vals.map (fun v => (sweep rest).map (fun t => (name, v) :: t))).flatten

/-- Modelled from the spec: the Sweep Queue of `execo_engine.ParamSweeper`
(not in the repository source), a partition of all combinations into
*remaining*, *in-progress*, *completed* and *canceled*. -/
structure ParamSweeper where
  remaining : List Comb
  inProgress : List Comb
  completed : List Comb
  canceled : List Comb
deriving DecidableEq, Repr

namespace ParamSweeper

/-- The initial sweeper: every generated combination is remaining. -/
def init (combs : List Comb) : ParamSweeper :=
  ⟨combs, [], [], []⟩

/-- Modelled from the spec: `next_combination` / `get_next` "atomically removes
and returns one combination from *remaining*, moving it to *in-progress*;
returns none if *remaining* is empty".  No ordering is guaranteed, so the model
takes the head of the remaining list. -/
def get_next (s : ParamSweeper) : Option (Comb × ParamSweeper) :=
  match s.remaining with
  | [] => none
  | c :: rest => some (c, { s with remaining := rest, inProgress := s.inProgress ++ [c] })

/-- Modelled from the spec: `done` moves a combination from *in-progress* to
*completed*; applying it to a combination that is not in progress is a no-op. -/
def done (s : ParamSweeper) (c : Comb) : ParamSweeper :=
  if c ∈ s.inProgress then
    { s with inProgress := s.inProgress.erase c, completed := s.completed ++ [c] }
  else s

/-- Modelled from the spec: `cancel` moves a combination from *in-progress* to
*canceled* ("the Combination is marked canceled and re-enters no queue");
applying it to a combination that is not in progress is a no-op. -/
def cancel (s : ParamSweeper) (c : Comb) : ParamSweeper :=
  if c ∈ s.inProgress then
    { s with inProgress := s.inProgress.erase c, canceled := s.canceled ++ [c] }
  else s

/-- All combinations currently tracked by the sweeper, across the four sets. -/
def allCombs (s : ParamSweeper) : List Comb :=
  s.remaining ++ s.inProgress ++ s.completed ++ s.canceled

/-- Total number of occurrences of a combination across the four sets. -/
def countAll (s : ParamSweeper) (c : Comb) : Nat :=
  s.remaining.count c + s.inProgress.count c + s.completed.count c + s.canceled.count c

/-- `c` lies in exactly one of the four sets of the sweeper. -/
def inExactlyOne (s : ParamSweeper) (c : Comb) : Prop :=
  (c ∈ s.remaining ∧ c ∉ s.inProgress ∧ c ∉ s.completed ∧ c ∉ s.canceled) ∨
  (c ∉ s.remaining ∧ c ∈ s.inProgress ∧ c ∉ s.completed ∧ c ∉ s.canceled) ∨
  (c ∉ s.remaining ∧ c ∉ s.inProgress ∧ c ∈ s.completed ∧ c ∉ s.canceled) ∨
  (c ∉ s.remaining ∧ c ∉ s.inProgress ∧ c ∉ s.completed ∧ c ∈ s.canceled)

end ParamSweeper

/-- One mutation of the sweeper, as performed during a run: a `get_next` pull
by the dispatcher, or a `done`/`cancel` report by a worker's workflow. -/
inductive SweepStep : ParamSweeper → ParamSweeper → Prop
  | next {s s' : ParamSweeper} {c : Comb} (h : s.get_next = some (c, s')) :
      SweepStep s s'
  | done (s : ParamSweeper) (c : Comb) : SweepStep s (s.done c)
  | cancel (s : ParamSweeper) (c : Comb) : SweepStep s (s.cancel c)

/-- Sweeper states reachable by any interleaving of the three operations. -/
inductive SweepReach : ParamSweeper → ParamSweeper → Prop
  | refl (s : ParamSweeper) : SweepReach s s
  | tail {s t u : ParamSweeper} : SweepReach s t → SweepStep t u → SweepReach s u

/-- A worker thread spawned by the dispatch loop: `t = Thread(target=self.workflow,
args=(comb, host)); threads[t] = {'host': host}` in `paassage_simu.run`. -/
structure Worker where
  tid : Nat
  host : Nat
  comb : Comb
deriving DecidableEq, Repr

/-- The external world of one run of the dispatch loop: the result of the
`n`-th `is_job_alive()` call, the poll tick at which each worker thread
terminates, and whether its workflow reached `comb_ok = True`. -/
structure Oracle where
  aliveSeq : Nat → Bool
  finish : Nat → Nat
  ok : Nat → Bool

/-- State of the dispatch loop of `paassage_simu.run` (lines 206-242): the
sweeper, the `available_hosts` list, the `threads` dictionary, plus
instrumentation (poll tick, count of `is_job_alive()` calls, numbers of
`sleep(5)` and `sleep(20)` calls, and the pulled combinations). -/
structure LoopState where
  sweeper : ParamSweeper
  availableHosts : List Nat
  threads : List Worker
  nextTid : Nat
  time : Nat
  aliveCalls : Nat
  sleeps5 : Nat
  sleeps20 : Nat
  pulls : List Comb
deriving DecidableEq, Repr

/-- `t.is_alive()` at the given poll tick: the thread is alive until the
oracle's finish tick for its id. -/
def threadAlive (o : Oracle) (w : Worker) (time : Nat) : Bool :=
  time < o.finish w.tid

/-- The `finally` block of `workflow`: `done(comb)` when `comb_ok` was set,
`cancel(comb)` otherwise. -/
def applyOutcome (o : Oracle) (sw : ParamSweeper) (w : Worker) : ParamSweeper :=
  if o.ok w.tid then sw.done w.comb else sw.cancel w.comb

/-- One `self.is_job_alive()` call, consuming the oracle's alive sequence. -/
def callAlive (o : Oracle) (st : LoopState) : Bool × LoopState :=
  (o.aliveSeq st.aliveCalls, { st with aliveCalls := st.aliveCalls + 1 })

/-- The workers of the thread dictionary that have terminated. -/
def deadWorkers (o : Oracle) (st : LoopState) : List Worker :=
  st.threads.filter (fun w => ! threadAlive o w st.time)

/-- Body of the slot-wait loop before the sleep: for every terminated thread,
append its host to `available_hosts` and delete it from `threads`; its
workflow's terminal report (`done`/`cancel`) is applied to the sweeper at this
observation point. -/
def reclaimDead (o : Oracle) (st : LoopState) : LoopState :=
  { st with
    threads := st.threads.filter (fun w => threadAlive o w st.time),
    availableHosts := st.availableHosts ++ (deadWorkers o st).map (fun w => w.host),
    sweeper := (deadWorkers o st).foldl (applyOutcome o) st.sweeper }

/-- `sleep(5)` inside the slot-wait loop: one poll tick passes. -/
def sleep5 (st : LoopState) : LoopState :=
  { st with time := st.time + 1, sleeps5 := st.sleeps5 + 1 }

/-- `sleep(20)` inside the drain loop: one poll tick passes. -/
def sleep20 (st : LoopState) : LoopState :=
  { st with time := st.time + 1, sleeps20 := st.sleeps20 + 1 }

/-- The slot-wait loop `while self.options.n_nodes > len(available_hosts)`:
reclaim terminated workers, `sleep(5)`, then check `is_job_alive()`; if the
job is dead, set `job_is_dead` and break.  Returns the state and the final
`job_is_dead` flag; `none` when the fuel runs out. -/
def waitLoop (o : Oracle) (nNodes : Nat) : Nat → LoopState → Option (LoopState × Bool)
  | fuel, st =>
    if nNodes ≤ st.availableHosts.length then some (st, false)
    else
      match fuel with
      | 0 => none
      | fuel' + 1 =>
        if (callAlive o (sleep5 (reclaimDead o st))).1 then
          waitLoop o nNodes fuel' ((callAlive o (sleep5 (reclaimDead o st))).2)
        else some ((callAlive o (sleep5 (reclaimDead o st))).2, true)

/-- The drain loop `while len(threads.keys()) > 0` entered when `get_next`
returns nothing: delete terminated threads (their hosts are NOT reclaimed
here), `sleep(20)`, repeat.  `none` when the fuel runs out. -/
def drainLoop (o : Oracle) : Nat → LoopState → Option LoopState
  | fuel, st =>
    if st.threads.isEmpty then some st
    else
      match fuel with
      | 0 => none
      | fuel' + 1 =>
        let st1 := { st with
          threads := st.threads.filter (fun w => threadAlive o w st.time),
          sweeper := (deadWorkers o st).foldl (applyOutcome o) st.sweeper }
        drainLoop o fuel' (sleep20 st1)

/-- Outcome of one iteration of the dispatch loop
`while self.is_job_alive() or len(threads.keys()) > 0`. -/
inductive IterOut where
  | exit (st : LoopState)
  | cont (st : LoopState)
  | stuck
deriving DecidableEq, Repr

/-- The state produced by a successful dispatch: head host consumed, a new
worker spawned on it, the pulled combination recorded
(`host = available_hosts[0]; available_hosts = available_hosts[1:];
t = Thread(...); threads[t] = {'host': host}; t.start()`). -/
def spawnState (st1 : LoopState) (sw : ParamSweeper) (hd : Nat) (rest : List Nat)
    (comb : Comb) : LoopState :=
  { st1 with
    sweeper := sw,
    availableHosts := rest,
    threads := st1.threads ++ [⟨st1.nextTid, hd, comb⟩],
    nextTid := st1.nextTid + 1,
    pulls := st1.pulls ++ [comb] }

/-- One iteration of the dispatch loop: check the loop condition, run the
slot-wait loop, break if the job died there, otherwise pull `get_next`; if
nothing remains, drain and break; otherwise take the head of
`available_hosts` and spawn a worker on it. -/
def dispatchIter (o : Oracle) (nNodes waitFuel drainFuel : Nat) (st : LoopState) : IterOut :=
  let p := callAlive o st
  if p.1 || ! p.2.threads.isEmpty then
    match waitLoop o nNodes waitFuel p.2 with
    | none => .stuck
    | some (st1, true) => .exit st1
    | some (st1, false) =>
      match st1.sweeper.get_next with
      | none =>
        match drainLoop o drainFuel st1 with
        | none => .stuck
        | some st2 => .exit st2
      | some (comb, sw) =>
        match st1.availableHosts with
        | [] => .stuck
        | h :: rest => .cont (spawnState st1 sw h rest comb)
  else .exit p.2

/-- The dispatch loop: iterate `dispatchIter` until it exits; `none` when the
fuel runs out or an iteration gets stuck. -/
def dispatchLoop (o : Oracle) (nNodes waitFuel drainFuel : Nat) :
    Nat → LoopState → Option LoopState
  | 0, _ => none
  | fuel + 1, st =>
    match dispatchIter o nNodes waitFuel drainFuel st with
    | .exit st' => some st'
    | .cont st' => dispatchLoop o nNodes waitFuel drainFuel fuel st'
    | .stuck => none

/-- The `finally` block of `paassage_simu.run` (lines 251-257): the job is
deleted only when an id is held and `keep_alive` is not set.  Returns the
list of released job ids. -/
def teardown (oargrid_job_id : Option Nat) (keep_alive : Bool) : List Nat :=
  match oargrid_job_id with
  | none => []
  | some j => if keep_alive then [] else [j]

/-- The `finally` block of `benchmark_storage5k/prototype.py` (line 67):
`oardel` releases the storage job and the node job, unconditionally. -/
def prototypeTeardown (storage_job_id node_job_id : Nat) : List Nat :=
  [storage_job_id, node_job_id]

/-- `number = 50 / chunk_size` in `benchmark_storage5k/prototype.py` (line 17),
Python 2 integer (floor) division. -/
def number (chunk_size : Nat) : Nat :=
  50 / chunk_size

/-- The state carried by a non-stuck iteration outcome. -/
def iterState : IterOut → Option LoopState
  | .exit st => some st
  | .cont st => some st
  | .stuck => none

/-- The pulled combinations recorded in a non-stuck iteration outcome. -/
def iterPulls : IterOut → List Comb
  | .exit st => st.pulls
  | .cont st => st.pulls
  | .stuck => []

/-- Number of still-registered worker threads in a dispatch-loop result. -/
def threadsLenOf : Option LoopState → Nat
  | some st => st.threads.length
  | none => 0

/-- Number of remaining combinations in a dispatch-loop result. -/
def remainingLenOf : Option LoopState → Nat
  | some st => st.sweeper.remaining.length
  | none => 0

/-- A run that, absent failure, marks every pulled combination done:
`get_next` until exhaustion, reporting success each time. -/
def runAllDone : Nat → ParamSweeper → Option ParamSweeper
  | 0, _ => none
  | fuel + 1, s =>
    match s.get_next with
    | none => some s
    | some (c, s') => runAllDone fuel (s'.done c)

/-- The spec's example sweep: 2 parameters, one with value range 0..1 and one
with value range 0..2. -/
def sweepC6 : List Comb :=
  sweep [("p1", [0, 1]), ("p2", [0, 1, 2])]

/-- A concrete combination used in witnesses and counterexamples. -/
def combA : Comb := [("p", 0)]

/-- A second concrete combination used in witnesses and counterexamples. -/
def combB : Comb := [("p", 1)]

/-- Oracle for the reservation-death counterexample: the job is alive at the
first `is_job_alive()` call and dead from the second on; the worker thread
runs long. -/
def oracleDead : Oracle :=
  ⟨fun n => n == 0, fun _ => 100, fun _ => true⟩

/-- Oracle whose `is_job_alive()` answer is always false and whose worker
threads run long. -/
def oracleFalse : Oracle :=
  ⟨fun _ => false, fun _ => 100, fun _ => true⟩

/-- Oracle for the failed-worker witness: every workflow fails and every
thread has terminated at tick 0. -/
def oracleFail : Oracle :=
  ⟨fun _ => true, fun _ => 0, fun _ => false⟩

/-- Dispatch-loop state with one in-flight worker on combination `combA`,
`combB` still remaining, and no available host slot. -/
def stateWaitDead : LoopState :=
  { sweeper := ⟨[combB], [combA], [], []⟩,
    availableHosts := [],
    threads := [⟨0, 7, combA⟩],
    nextTid := 1,
    time := 0,
    aliveCalls := 0,
    sleeps5 := 0,
    sleeps20 := 0,
    pulls := [combA] }

/-- Oracle for the drain witness: the job stays alive, every worker thread
terminates at tick 1 and succeeds. -/
def oracleDrain : Oracle :=
  ⟨fun _ => true, fun _ => 1, fun _ => true⟩

/-- Dispatch-loop state with one in-flight worker on combination `combA`,
nothing remaining, and a free host slot: about to enter the drain. -/
def stateDrain : LoopState :=
  { sweeper := ⟨[], [combA], [], []⟩,
    availableHosts := [3],
    threads := [⟨0, 7, combA⟩],
    nextTid := 1,
    time := 0,
    aliveCalls := 0,
    sleeps5 := 0,
    sleeps20 := 0,
    pulls := [combA] }

/-- Fresh dispatch-loop state over the two-combination sweep. -/
def stateC1 : LoopState :=
  { sweeper := ParamSweeper.init [combA, combB],
    availableHosts := [1],
    threads := [],
    nextTid := 0,
    time := 0,
    aliveCalls := 0,
    sleeps5 := 0,
    sleeps20 := 0,
    pulls := [] }

/-- The state in which the dispatch loop gives up on `stateWaitDead` once the
job is reported dead during the slot wait. -/
def stateWaitDeadExit : LoopState :=
  { sweeper := ⟨[combB], [combA], [], []⟩,
    availableHosts := [],
    threads := [⟨0, 7, combA⟩],
    nextTid := 1,
    time := 1,
    aliveCalls := 2,
    sleeps5 := 1,
    sleeps20 := 0,
    pulls := [combA] }

/-- The state in which the slot-wait loop, started directly on
`stateWaitDead`, reports the job dead. -/
def stateWaitDeadWaitFinal : LoopState :=
  { sweeper := ⟨[combB], [combA], [], []⟩,
    availableHosts := [],
    threads := [⟨0, 7, combA⟩],
    nextTid := 1,
    time := 2,
    aliveCalls := 2,
    sleeps5 := 2,
    sleeps20 := 0,
    pulls := [combA] }

/-- The state in which the drain started from `stateDrain` completes. -/
def stateDrainFinal : LoopState :=
  { sweeper := ⟨[], [], [combA], []⟩,
    availableHosts := [3],
    threads := [],
    nextTid := 1,
    time := 2,
    aliveCalls := 1,
    sleeps5 := 0,
    sleeps20 := 2,
    pulls := [combA] }

/-- Whether a slot-wait result reports the job alive with at least `nN`
available host slots. -/
def waitOk (nN : Nat) : Option (LoopState × Bool) → Bool
  | some (st1, b) => !b && decide (nN ≤ st1.availableHosts.length)
  | none => false

/-- Dispatch-loop state with one in-flight worker on combination `combA`,
`combB` still remaining, and one free host slot. -/
def stateFreeSlot : LoopState :=
  { sweeper := ⟨[combB], [combA], [], []⟩,
    availableHosts := [9],
    threads := [⟨0, 7, combA⟩],
    nextTid := 1,
    time := 0,
    aliveCalls := 0,
    sleeps5 := 0,
    sleeps20 := 0,
    pulls := [combA] }

namespace ParamSweeper

lemma countAll_get_next {s s' : ParamSweeper} {c : Comb}
    (h : s.get_next = some (c, s')) (d : Comb) : s'.countAll d = s.countAll d := by
  unfold get_next at h
  cases hr : s.remaining with
  | nil => rw [hr] at h; exact absurd h (by simp)
  | cons c0 rest =>
    rw [hr] at h
    simp only [Option.some.injEq, Prod.mk.injEq] at h
    obtain ⟨hc, hs⟩ := h
    subst hc
    subst hs
    by_cases hdc : d = c0
    · subst hdc
      simp [countAll, hr, List.count_append, List.count_cons_self]
      omega
    · simp [countAll, hr, List.count_append, List.count_cons_of_ne hdc]

lemma countAll_done (s : ParamSweeper) (c d : Comb) :
    (s.done c).countAll d = s.countAll d := by
  unfold done
  by_cases hm : c ∈ s.inProgress
  · simp only [hm, if_true]
    by_cases hdc : d = c
    · subst hdc
      have hp : 0 < s.inProgress.count d := List.count_pos_iff.mpr hm
      simp [countAll, List.count_append, List.count_erase_self, List.count_cons_self]
      omega
    · simp [countAll, List.count_append, List.count_erase_of_ne hdc,
        List.count_cons_of_ne hdc]
  · simp [hm]

lemma countAll_cancel (s : ParamSweeper) (c d : Comb) :
    (s.cancel c).countAll d = s.countAll d := by
  unfold cancel
  by_cases hm : c ∈ s.inProgress
  · simp only [hm, if_true]
    by_cases hdc : d = c
    · subst hdc
      have hp : 0 < s.inProgress.count d := List.count_pos_iff.mpr hm
      simp [countAll, List.count_append, List.count_erase_self, List.count_cons_self]
      omega
    · simp [countAll, List.count_append, List.count_erase_of_ne hdc,
        List.count_cons_of_ne hdc]
  · simp [hm]

lemma countAll_init (full : List Comb) (d : Comb) :
    (init full).countAll d = full.count d := by
  simp [init, countAll]

end ParamSweeper

lemma countAll_sweepStep {s s' : ParamSweeper} (h : SweepStep s s') (d : Comb) :
    s'.countAll d = s.countAll d := by
  cases h with
  | next h => exact ParamSweeper.countAll_get_next h d
  | done c => exact ParamSweeper.countAll_done s c d
  | cancel c => exact ParamSweeper.countAll_cancel s c d

lemma countAll_sweepReach {s0 s : ParamSweeper} (h : SweepReach s0 s) (d : Comb) :
    s.countAll d = s0.countAll d := by
  induction h with
  | refl => rfl
  | tail _ hstep ih => rw [countAll_sweepStep hstep d, ih]

lemma inExactlyOne_of_countAll_one {s : ParamSweeper} {c : Comb}
    (h : s.countAll c = 1) : s.inExactlyOne c := by
  unfold ParamSweeper.countAll at h
  unfold ParamSweeper.inExactlyOne
  rw [← List.count_pos_iff (a := c) (l := s.remaining),
    ← List.count_pos_iff (a := c) (l := s.inProgress),
    ← List.count_pos_iff (a := c) (l := s.completed),
    ← List.count_pos_iff (a := c) (l := s.canceled)]
  omega

lemma allCombs_count (s : ParamSweeper) (d : Comb) :
    s.allCombs.count d = s.countAll d := by
  simp [ParamSweeper.allCombs, ParamSweeper.countAll, List.count_append]
  omega

lemma get_next_eq_none {s : ParamSweeper} (h : s.remaining = []) : s.get_next = none := by
  unfold ParamSweeper.get_next
  rw [h]

@[simp] lemma callAlive_sweeper (o : Oracle) (st : LoopState) :
    (callAlive o st).2.sweeper = st.sweeper := rfl

@[simp] lemma callAlive_threads (o : Oracle) (st : LoopState) :
    (callAlive o st).2.threads = st.threads := rfl

@[simp] lemma callAlive_availableHosts (o : Oracle) (st : LoopState) :
    (callAlive o st).2.availableHosts = st.availableHosts := rfl

@[simp] lemma callAlive_sleeps5 (o : Oracle) (st : LoopState) :
    (callAlive o st).2.sleeps5 = st.sleeps5 := rfl

@[simp] lemma callAlive_sleeps20 (o : Oracle) (st : LoopState) :
    (callAlive o st).2.sleeps20 = st.sleeps20 := rfl

@[simp] lemma sleep5_sweeper (st : LoopState) : (sleep5 st).sweeper = st.sweeper := rfl

@[simp] lemma sleep5_sleeps5 (st : LoopState) : (sleep5 st).sleeps5 = st.sleeps5 + 1 := rfl

@[simp] lemma sleep20_sleeps20 (st : LoopState) : (sleep20 st).sleeps20 = st.sleeps20 + 1 := rfl

@[simp] lemma reclaimDead_sweeper (o : Oracle) (st : LoopState) :
    (reclaimDead o st).sweeper = (deadWorkers o st).foldl (applyOutcome o) st.sweeper := rfl

@[simp] lemma reclaimDead_sleeps5 (o : Oracle) (st : LoopState) :
    (reclaimDead o st).sleeps5 = st.sleeps5 := rfl

@[simp] lemma reclaimDead_availableHosts (o : Oracle) (st : LoopState) :
    (reclaimDead o st).availableHosts =
      st.availableHosts ++ (deadWorkers o st).map (fun w => w.host) := rfl

lemma sweepReach_trans {a b c : ParamSweeper}
    (h1 : SweepReach a b) (h2 : SweepReach b c) : SweepReach a c := by
  induction h2 with
  | refl => exact h1
  | tail _ hstep ih => exact SweepReach.tail ih hstep

lemma sweepReach_applyOutcome (o : Oracle) {s0 : ParamSweeper} (sw : ParamSweeper)
    (w : Worker) (h : SweepReach s0 sw) : SweepReach s0 (applyOutcome o sw w) := by
  unfold applyOutcome
  by_cases hok : o.ok w.tid
  · simpa [hok] using SweepReach.tail h (SweepStep.done sw w.comb)
  · simpa [hok] using SweepReach.tail h (SweepStep.cancel sw w.comb)

lemma sweepReach_foldl (o : Oracle) {s0 : ParamSweeper} (ws : List Worker)
    (sw : ParamSweeper) (h : SweepReach s0 sw) :
    SweepReach s0 (ws.foldl (applyOutcome o) sw) := by
  induction ws generalizing sw with
  | nil => exact h
  | cons w ws ih => exact ih _ (sweepReach_applyOutcome o sw w h)

lemma sweepReach_waitLoop {o : Oracle} {nN : Nat} :
    ∀ {fuel : Nat} {st st' : LoopState} {b : Bool},
      waitLoop o nN fuel st = some (st', b) →
      ∀ {s0 : ParamSweeper}, SweepReach s0 st.sweeper → SweepReach s0 st'.sweeper := by
  intro fuel
  induction fuel with
  | zero =>
    intro st st' b h s0 h0
    rw [waitLoop] at h
    split at h
    · obtain ⟨rfl, rfl⟩ : st = st' ∧ false = b := by simpa using h
      exact h0
    · simp at h
  | succ f ih =>
    intro st st' b h s0 h0
    rw [waitLoop] at h
    split at h
    · obtain ⟨rfl, rfl⟩ : st = st' ∧ false = b := by simpa using h
      exact h0
    · split at h
      · exact ih h (by simpa using sweepReach_foldl o (deadWorkers o st) st.sweeper h0)
      · obtain ⟨rfl, rfl⟩ : (callAlive o (sleep5 (reclaimDead o st))).2 = st' ∧ true = b := by
          simpa using h
        simpa using sweepReach_foldl o (deadWorkers o st) st.sweeper h0

lemma waitLoop_false_post {o : Oracle} {nN : Nat} :
    ∀ {fuel : Nat} {st st' : LoopState},
      waitLoop o nN fuel st = some (st', false) → nN ≤ st'.availableHosts.length := by
  intro fuel
  induction fuel with
  | zero =>
    intro st st' h
    rw [waitLoop] at h
    split at h
    · rename_i hc
      obtain rfl : st = st' := by simpa using h
      exact hc
    · simp at h
  | succ f ih =>
    intro st st' h
    rw [waitLoop] at h
    split at h
    · rename_i hc
      obtain rfl : st = st' := by simpa using h
      exact hc
    · split at h
      · exact ih h
      · simp at h

lemma waitLoop_sleeps {o : Oracle} {nN : Nat} :
    ∀ {fuel : Nat} {st st' : LoopState} {b : Bool},
      waitLoop o nN fuel st = some (st', b) →
      st.sleeps5 ≤ st'.sleeps5 ∧
        (¬ nN ≤ st.availableHosts.length → st.sleeps5 < st'.sleeps5) := by
  intro fuel
  induction fuel with
  | zero =>
    intro st st' b h
    rw [waitLoop] at h
    split at h
    · rename_i hc
      obtain ⟨rfl, rfl⟩ : st = st' ∧ false = b := by simpa using h
      exact ⟨Nat.le_refl _, fun hn => absurd hc hn⟩
    · simp at h
  | succ f ih =>
    intro st st' b h
    rw [waitLoop] at h
    split at h
    · rename_i hc
      obtain ⟨rfl, rfl⟩ : st = st' ∧ false = b := by simpa using h
      exact ⟨Nat.le_refl _, fun hn => absurd hc hn⟩
    · split at h
      · have := (ih h).1
        simp at this
        exact ⟨by omega, fun _ => by omega⟩
      · obtain ⟨rfl, rfl⟩ : (callAlive o (sleep5 (reclaimDead o st))).2 = st' ∧ true = b := by
          simpa using h
        refine ⟨by simp, fun _ => by simp⟩

lemma drainLoop_threads {o : Oracle} :
    ∀ {fuel : Nat} {st st' : LoopState},
      drainLoop o fuel st = some st' → st'.threads = [] := by
  intro fuel
  induction fuel with
  | zero =>
    intro st st' h
    rw [drainLoop] at h
    split at h
    · rename_i hc
      obtain rfl : st = st' := by simpa using h
      exact List.isEmpty_iff.mp hc
    · simp at h
  | succ f ih =>
    intro st st' h
    rw [drainLoop] at h
    split at h
    · rename_i hc
      obtain rfl : st = st' := by simpa using h
      exact List.isEmpty_iff.mp hc
    · exact ih h

lemma drainLoop_sleeps {o : Oracle} :
    ∀ {fuel : Nat} {st st' : LoopState},
      drainLoop o fuel st = some st' →
      st.sleeps20 ≤ st'.sleeps20 ∧ (st.threads ≠ [] → st.sleeps20 < st'.sleeps20) := by
  intro fuel
  induction fuel with
  | zero =>
    intro st st' h
    rw [drainLoop] at h
    split at h
    · rename_i hc
      obtain rfl : st = st' := by simpa using h
      exact ⟨Nat.le_refl _, fun hn => absurd (List.isEmpty_iff.mp hc) hn⟩
    · simp at h
  | succ f ih =>
    intro st st' h
    rw [drainLoop] at h
    split at h
    · rename_i hc
      obtain rfl : st = st' := by simpa using h
      exact ⟨Nat.le_refl _, fun hn => absurd (List.isEmpty_iff.mp hc) hn⟩
    · have := (ih h).1
      simp at this
      exact ⟨by omega, fun _ => by omega⟩

lemma sweepReach_drainLoop {o : Oracle} :
    ∀ {fuel : Nat} {st st' : LoopState},
      drainLoop o fuel st = some st' →
      ∀ {s0 : ParamSweeper}, SweepReach s0 st.sweeper → SweepReach s0 st'.sweeper := by
  intro fuel
  induction fuel with
  | zero =>
    intro st st' h s0 h0
    rw [drainLoop] at h
    split at h
    · obtain rfl : st = st' := by simpa using h
      exact h0
    · simp at h
  | succ f ih =>
    intro st st' h s0 h0
    rw [drainLoop] at h
    split at h
    · obtain rfl : st = st' := by simpa using h
      exact h0
    · exact ih h (sweepReach_foldl o (deadWorkers o st) st.sweeper h0)

lemma sweepReach_iterState {o : Oracle} {nN wF dF : Nat} {st st' : LoopState}
    (h : iterState (dispatchIter o nN wF dF st) = some st')
    {s0 : ParamSweeper} (h0 : SweepReach s0 st.sweeper) : SweepReach s0 st'.sweeper := by
  simp only [dispatchIter] at h
  split at h
  · split at h
    · simp [iterState] at h
    · obtain rfl : _ = st' := by simpa [iterState] using h
      rename_i st1 hw
      exact sweepReach_waitLoop hw (by simpa using h0)
    · rename_i st1 hw
      split at h
      · split at h
        · simp [iterState] at h
        · rename_i st2 hd
          obtain rfl : st2 = st' := by simpa [iterState] using h
          exact sweepReach_drainLoop hd (sweepReach_waitLoop hw (by simpa using h0))
      · rename_i comb sw hg
        split at h
        · simp [iterState] at h
        · rename_i hdd rest hh
          obtain rfl : _ = st' := by simpa [iterState] using h
          exact SweepReach.tail (sweepReach_waitLoop hw (by simpa using h0))
            (SweepStep.next hg)
  · obtain rfl : _ = st' := by simpa [iterState] using h
    simpa using h0

lemma dispatchIter_cont_inv {o : Oracle} {nN wF dF : Nat} {st st2 : LoopState}
    (h : dispatchIter o nN wF dF st = .cont st2) :
    ∃ st1 comb sw hd rest,
      waitLoop o nN wF (callAlive o st).2 = some (st1, false) ∧
      st1.sweeper.get_next = some (comb, sw) ∧
      st1.availableHosts = hd :: rest ∧
      st2 = spawnState st1 sw hd rest comb := by
  simp only [dispatchIter] at h
  split at h
  · split at h
    · simp at h
    · simp at h
    · rename_i st1 hw
      split at h
      · split at h
        · simp at h
        · simp at h
      · rename_i comb sw hg
        split at h
        · simp at h
        · rename_i hdd rest hh
          obtain rfl : _ = st2 := by simpa using h
          exact ⟨st1, comb, sw, hdd, rest, hw, hg, hh, rfl⟩
  · simp at h

lemma dispatchIter_exit_of_waitDead {o : Oracle} {nN wF dF : Nat} {st st1 : LoopState}
    (hthreads : st.threads ≠ [])
    (hw : waitLoop o nN wF (callAlive o st).2 = some (st1, true)) :
    dispatchIter o nN wF dF st = .exit st1 := by
  have hne : st.threads.isEmpty = false := by
    simpa using hthreads
  simp [dispatchIter, hne, hw]

lemma dispatchIter_cont_of_next {o : Oracle} {nN wF dF : Nat} {st st1 : LoopState}
    {comb : Comb} {sw : ParamSweeper} {hd : Nat} {rest : List Nat}
    (hthreads : st.threads ≠ [])
    (hw : waitLoop o nN wF (callAlive o st).2 = some (st1, false))
    (hg : st1.sweeper.get_next = some (comb, sw))
    (hh : st1.availableHosts = hd :: rest) :
    dispatchIter o nN wF dF st = .cont (spawnState st1 sw hd rest comb) := by
  have hne : st.threads.isEmpty = false := by
    simpa using hthreads
  simp [dispatchIter, hne, hw, hg, hh]

lemma dispatchIter_exit_drain {o : Oracle} {nN wF dF : Nat} {st st1 st2 : LoopState}
    (hthreads : st.threads ≠ [])
    (hw : waitLoop o nN wF (callAlive o st).2 = some (st1, false))
    (hr : st1.sweeper.remaining = [])
    (hd : drainLoop o dF st1 = some st2) :
    dispatchIter o nN wF dF st = .exit st2 := by
  have hne : st.threads.isEmpty = false := by
    simpa using hthreads
  simp [dispatchIter, hne, hw, get_next_eq_none hr, hd]

lemma reclaimDead_host_mem {o : Oracle} {st : LoopState} {w : Worker}
    (hw : w ∈ st.threads) (hdead : o.finish w.tid ≤ st.time) :
    w.host ∈ (reclaimDead o st).availableHosts := by
  rw [reclaimDead_availableHosts]
  refine List.mem_append_right _ (List.mem_map.mpr ⟨w, ?_, rfl⟩)
  refine List.mem_filter.mpr ⟨hw, ?_⟩
  simp [threadAlive]
  omega

lemma canceled_terminal {s s' : ParamSweeper} {c : Comb} (h : SweepStep s s')
    (hc : c ∈ s.canceled) (hr : c ∉ s.remaining) :
    c ∈ s'.canceled ∧ c ∉ s'.remaining := by
  cases h with
  | next hg =>
    unfold ParamSweeper.get_next at hg
    cases hrm : s.remaining with
    | nil => rw [hrm] at hg; simp at hg
    | cons d0 rest =>
      rw [hrm] at hg
      simp only [Option.some.injEq, Prod.mk.injEq] at hg
      obtain ⟨-, rfl⟩ := hg
      refine ⟨hc, fun hmem => hr ?_⟩
      rw [hrm]
      exact List.mem_cons_of_mem _ hmem
  | done d =>
    unfold ParamSweeper.done
    split
    · exact ⟨hc, hr⟩
    · exact ⟨hc, hr⟩
  | cancel d =>
    unfold ParamSweeper.cancel
    split
    · exact ⟨List.mem_append_left _ hc, hr⟩
    · exact ⟨hc, hr⟩

lemma canceled_terminal_reach {s0 s : ParamSweeper} {c : Comb} (h : SweepReach s0 s)
    (hc : c ∈ s0.canceled) (hr : c ∉ s0.remaining) :
    c ∈ s.canceled ∧ c ∉ s.remaining := by
  induction h with
  | refl => exact ⟨hc, hr⟩
  | tail _ hstep ih => exact canceled_terminal hstep ih.1 ih.2

lemma waitLoop_alive_no_dead {o : Oracle} {nN : Nat}
    (halive : ∀ n, o.aliveSeq n = true) :
    ∀ {fuel : Nat} {st st' : LoopState} {b : Bool},
      waitLoop o nN fuel st = some (st', b) → b = false := by
  intro fuel
  induction fuel with
  | zero =>
    intro st st' b h
    rw [waitLoop] at h
    split at h
    · obtain ⟨-, rfl⟩ : st = st' ∧ false = b := by simpa using h
      rfl
    · simp at h
  | succ f ih =>
    intro st st' b h
    rw [waitLoop] at h
    split at h
    · obtain ⟨-, rfl⟩ : st = st' ∧ false = b := by simpa using h
      rfl
    · split at h
      · exact ih h
      · rename_i hfalse
        rw [show (callAlive o (sleep5 (reclaimDead o st))).1 = true from halive _] at hfalse
        simp at hfalse

lemma dispatchIter_exit_alive {o : Oracle} {nN wF dF : Nat} {st st' : LoopState}
    (halive : ∀ n, o.aliveSeq n = true)
    (h : dispatchIter o nN wF dF st = .exit st') : st'.threads = [] := by
  simp only [dispatchIter] at h
  split at h
  · split at h
    · simp at h
    · rename_i st1 hw
      exact absurd (waitLoop_alive_no_dead halive hw) (by simp)
    · rename_i st1 hw
      split at h
      · split at h
        · simp at h
        · rename_i st2 hd
          obtain rfl : st2 = st' := by simpa using h
          exact drainLoop_threads hd
      · split at h
        · simp at h
        · simp at h
  · rename_i hcond
    rw [show (callAlive o st).1 = true from halive _] at hcond
    simp at hcond

lemma dispatchLoop_alive_threads {o : Oracle} {nN wF dF : Nat}
    (halive : ∀ n, o.aliveSeq n = true) :
    ∀ {fuel : Nat} {st st' : LoopState},
      dispatchLoop o nN wF dF fuel st = some st' → st'.threads = [] := by
  intro fuel
  induction fuel with
  | zero =>
    intro st st' h
    rw [dispatchLoop] at h
    simp at h
  | succ f ih =>
    intro st st' h
    rw [dispatchLoop] at h
    split at h
    · rename_i st1 hiter
      obtain rfl : st1 = st' := by simpa using h
      exact dispatchIter_exit_alive halive hiter
    · exact ih h
    · simp at h

/-- C1: at every observation point of a sweep run, each combination generated
from the parameter ranges is in exactly one of the four sets (remaining,
in-progress, completed, canceled), and the union of the four sets is constant
over the whole run and equal to the full Cartesian product: every sweeper
state reachable by any interleaving of `get_next`, `done` and `cancel` from
the initial sweep keeps the partition, its four sets together are a
permutation of the full combination list, and every dispatch-loop iteration
moves the sweeper along such reachable states only. -/
theorem C1_partition_invariant (full : List Comb) (s : ParamSweeper)
    (hreach : SweepReach (ParamSweeper.init full) s) (hnd : full.Nodup) :
    (∀ c, c ∈ full → s.inExactlyOne c) ∧
    s.allCombs.Perm full ∧
    (∀ (o : Oracle) (nN wF dF : Nat) (st st' : LoopState),
      st.sweeper = s → iterState (dispatchIter o nN wF dF st) = some st' →
      SweepReach (ParamSweeper.init full) st'.sweeper) := by
  have hcount : ∀ d, s.countAll d = full.count d := fun d => by
    rw [countAll_sweepReach hreach d, ParamSweeper.countAll_init]
  refine ⟨?_, ?_, ?_⟩
  · intro c hc
    exact inExactlyOne_of_countAll_one
      ((hcount c).trans (List.count_eq_one_of_mem hnd hc))
  · refine List.perm_iff_count.mpr fun d => ?_
    rw [allCombs_count, hcount]
  · intro o nN wF dF st st' hst h
    exact sweepReach_iterState h (hst ▸ hreach)

/-- Witness for C1 at the concrete two-combination sweep and a fresh
dispatch-loop state. -/
theorem C1_partition_invariant_witness :
    (ParamSweeper.init [combA, combB]).inExactlyOne combA ∧
    (ParamSweeper.init [combA, combB]).allCombs.Perm [combA, combB] ∧
    SweepReach (ParamSweeper.init [combA, combB])
      ((callAlive oracleFalse stateC1).2).sweeper := by
  have h := C1_partition_invariant [combA, combB] (ParamSweeper.init [combA, combB])
    (SweepReach.refl _) (by decide)
  exact ⟨h.1 combA (by decide), h.2.1, h.2.2 oracleFalse 1 5 5 stateC1 _ rfl rfl⟩

/-- C2: while a combination is in progress, no call to `get_next` returns it
again: in any reachable sweeper state where `c` is in progress, `get_next`
returns a combination different from `c` (and that combination is itself
in progress in the successor state), so no two workers are ever bound to the
same combination simultaneously. -/
theorem C2_no_concurrent_duplicate (full : List Comb) (s : ParamSweeper) (c : Comb)
    (hreach : SweepReach (ParamSweeper.init full) s) (hnd : full.Nodup)
    (hc : c ∈ s.inProgress) :
    ∀ d s', s.get_next = some (d, s') → d ≠ c ∧ d ∈ s'.inProgress := by
  have hcount : s.countAll c = full.count c := by
    rw [countAll_sweepReach hreach c, ParamSweeper.countAll_init]
  have hle : full.count c ≤ 1 := List.nodup_iff_count_le_one.mp hnd c
  have hip : 0 < s.inProgress.count c := List.count_pos_iff.mpr hc
  have hrem : s.remaining.count c = 0 := by
    unfold ParamSweeper.countAll at hcount
    omega
  have hnotmem : c ∉ s.remaining := List.count_eq_zero.mp hrem
  intro d s' hg
  unfold ParamSweeper.get_next at hg
  cases hr : s.remaining with
  | nil => rw [hr] at hg; simp at hg
  | cons d0 rest =>
    rw [hr] at hg
    simp only [Option.some.injEq, Prod.mk.injEq] at hg
    obtain ⟨rfl, rfl⟩ := hg
    constructor
    · intro hdc
      subst hdc
      exact hnotmem (hr ▸ List.mem_cons_self _ _)
    · simp

/-- Witness for C2: after pulling `combA`, a second pull returns `combB`,
not the in-progress `combA`. -/
theorem C2_no_concurrent_duplicate_witness :
    combB ≠ combA ∧
    combB ∈ (ParamSweeper.mk [] [combA, combB] [] []).inProgress :=
  C2_no_concurrent_duplicate [combA, combB] (ParamSweeper.mk [combB] [combA] [] []) combA
    (SweepReach.tail (SweepReach.refl _) (SweepStep.next (c := combA) rfl))
    (by decide) (by decide) combB (ParamSweeper.mk [] [combA, combB] [] []) rfl

/-- C5: a worker whose workflow fails reports `cancel` (the `finally` block of
`workflow` with `comb_ok` still false), after which its combination is in the
canceled set and never returns to remaining under any further sweeper
operation, and the worker's host slot is appended back to `available_hosts`
when the dispatch loop reclaims the terminated thread. -/
theorem C5_worker_failure (o : Oracle) (full : List Comb) (sw : ParamSweeper)
    (st : LoopState) (w : Worker)
    (hreach : SweepReach (ParamSweeper.init full) sw) (hnd : full.Nodup)
    (hfail : o.ok w.tid = false) (hip : w.comb ∈ sw.inProgress)
    (hw : w ∈ st.threads) (hdead : o.finish w.tid ≤ st.time) :
    applyOutcome o sw w = sw.cancel w.comb ∧
    (∀ s', SweepReach (sw.cancel w.comb) s' →
      w.comb ∈ s'.canceled ∧ w.comb ∉ s'.remaining) ∧
    w.host ∈ (reclaimDead o st).availableHosts := by
  have h1 : applyOutcome o sw w = sw.cancel w.comb := by
    unfold applyOutcome
    simp [hfail]
  have hcount : sw.countAll w.comb = full.count w.comb := by
    rw [countAll_sweepReach hreach w.comb, ParamSweeper.countAll_init]
  have hle : full.count w.comb ≤ 1 := List.nodup_iff_count_le_one.mp hnd w.comb
  have hipc : 0 < sw.inProgress.count w.comb := List.count_pos_iff.mpr hip
  have hremc : sw.remaining.count w.comb = 0 := by
    unfold ParamSweeper.countAll at hcount
    omega
  have hrem : w.comb ∉ sw.remaining := List.count_eq_zero.mp hremc
  have hcanc : w.comb ∈ (sw.cancel w.comb).canceled := by
    unfold ParamSweeper.cancel
    simp [hip]
  have hrem' : w.comb ∉ (sw.cancel w.comb).remaining := by
    unfold ParamSweeper.cancel
    simpa [hip] using hrem
  exact ⟨h1, fun s' hs' => canceled_terminal_reach hs' hcanc hrem',
    reclaimDead_host_mem hw hdead⟩

/-- Witness for C5 at a concrete failed worker on `combA`. -/
theorem C5_worker_failure_witness :
    applyOutcome oracleFail (ParamSweeper.mk [combB] [combA] [] []) ⟨0, 7, combA⟩ =
      (ParamSweeper.mk [combB] [combA] [] []).cancel combA ∧
    combA ∈ ((ParamSweeper.mk [combB] [combA] [] []).cancel combA).canceled ∧
    combA ∉ ((ParamSweeper.mk [combB] [combA] [] []).cancel combA).remaining ∧
    (7 : Nat) ∈ (reclaimDead oracleFail stateWaitDead).availableHosts := by
  have h := C5_worker_failure oracleFail [combA, combB]
    (ParamSweeper.mk [combB] [combA] [] []) stateWaitDead ⟨0, 7, combA⟩
    (SweepReach.tail (SweepReach.refl _) (SweepStep.next (c := combA) rfl))
    (by decide) rfl (by decide) (by decide) (by decide)
  have h4 := h.2.1 _ (SweepReach.refl _)
  exact ⟨h.1, h4.1, h4.2, h.2.2⟩

/-- C6: the sweep over 2 parameters with value ranges 0..1 and 0..2 produces
exactly 6 distinct combinations, and a failure-free run (every pulled
combination reported done) runs each of them exactly once, ending with all 6
in the completed set and nothing anywhere else. -/
theorem C6_six_combinations :
    sweepC6.length = 6 ∧ sweepC6.Nodup ∧
    runAllDone 7 (ParamSweeper.init sweepC6) =
      some (ParamSweeper.mk [] [] sweepC6 []) := by
  decide

/-- C10: the storage benchmark requests `50 / chunk_size` chunks, with `/` the
integer floor division (the largest `n` with `n * chunk_size ≤ 50`); in
particular every chunk size strictly greater than 50 yields 0 chunks. -/
theorem C10_chunk_floor_division :
    (∀ c, 0 < c → number c * c ≤ 50 ∧ 50 < (number c + 1) * c) ∧
    (∀ c, 50 < c → number c = 0) := by
  constructor
  · intro c hc
    constructor
    · simpa [number] using Nat.div_mul_le_self 50 c
    · have hmod := Nat.div_add_mod 50 c
      have hlt : 50 % c < c := Nat.mod_lt 50 hc
      unfold number
      rw [Nat.add_mul, Nat.one_mul]
      rw [Nat.mul_comm c (50 / c)] at hmod
      omega
  · intro c hc
    unfold number
    exact Nat.div_eq_of_lt hc

/-- Witness for C10 at chunk sizes 7 and 51. -/
theorem C10_chunk_floor_division_witness :
    (number 7 * 7 ≤ 50 ∧ 50 < (number 7 + 1) * 7) ∧ number 51 = 0 :=
  ⟨C10_chunk_floor_division.1 7 (by decide), C10_chunk_floor_division.2 51 (by decide)⟩

/-- C3 counterexample: with the job reported dead during the slot wait while
a dispatched worker is still running and a combination remains, the dispatch
loop returns — with the worker still unreported (one registered thread) and
one combination remaining, refuting "returns only after every
already-dispatched Worker has reported its outcome". -/
theorem C3_counterexample :
    dispatchLoop oracleDead 1 5 5 5 stateWaitDead = some stateWaitDeadExit ∧
    stateWaitDeadExit.threads ≠ [] ∧
    stateWaitDeadExit.sweeper.remaining ≠ [] := by
  refine ⟨rfl, by decide, by decide⟩

/-- C3 amended: job aliveness is only consulted inside the slot-wait loop.
If the wait loop reports the job dead, the dispatch loop exits immediately
with the wait loop's state — without waiting for the still-registered
workers; if the wait loop exits normally (slots available), a remaining
combination is pulled and dispatched regardless of what any `is_job_alive()`
call returned.  Both parts hold for every oracle, so for every aliveness
history. -/
theorem C3_dead_reservation (o : Oracle) (nN wF dF : Nat) (st : LoopState)
    (hthreads : st.threads ≠ []) :
    (∀ st1, waitLoop o nN wF (callAlive o st).2 = some (st1, true) →
      dispatchIter o nN wF dF st = .exit st1) ∧
    (∀ st1 comb sw hd rest,
      waitLoop o nN wF (callAlive o st).2 = some (st1, false) →
      st1.sweeper.get_next = some (comb, sw) →
      st1.availableHosts = hd :: rest →
      dispatchIter o nN wF dF st = .cont (spawnState st1 sw hd rest comb)) :=
  ⟨fun st1 hw => dispatchIter_exit_of_waitDead hthreads hw,
   fun st1 comb sw hd rest hw hg hh => dispatchIter_cont_of_next hthreads hw hg hh⟩

/-- Witness for C3's amended claim: the concrete dead-job scenario exits in
one iteration with the worker thread still registered. -/
theorem C3_dead_reservation_witness :
    dispatchIter oracleDead 1 5 5 stateWaitDead = .exit stateWaitDeadExit :=
  (C3_dead_reservation oracleDead 1 5 5 stateWaitDead (by decide)).1
    stateWaitDeadExit rfl

/-- C4 counterexample: with the `keep_alive` option set, the `finally` block
of `run` releases nothing although a reservation is held, refuting "release
is invoked exactly once on every exit path". -/
theorem C4_counterexample :
    teardown (some 42) true = [] ∧ ([] : List Nat).length ≠ 1 :=
  ⟨rfl, by decide⟩

/-- C4 amended: on every exit path, the reservation held at exit is released
exactly once when `keep_alive` is unset, and never when `keep_alive` is set
or when no job id is held at exit (as after a job death, which clears the
id); the storage-benchmark prototype releases its two reservations exactly
once each on every exit path. -/
theorem C4_release_policy (j sj nj : Nat) (k : Bool) :
    teardown (some j) false = [j] ∧
    teardown (some j) true = [] ∧
    teardown none k = [] ∧
    prototypeTeardown sj nj = [sj, nj] :=
  ⟨rfl, rfl, rfl, rfl⟩

/-- C7 counterexample: with every `is_job_alive()` call answering false but a
worker thread still registered and a slot free, the dispatch loop still pulls
and dispatches the next combination, refuting "pulls only when the
reservation is alive". -/
theorem C7_counterexample :
    oracleFalse.aliveSeq = (fun _ => false) ∧
    dispatchIter oracleFalse 1 5 5 stateFreeSlot =
      .cont (spawnState (callAlive oracleFalse stateFreeSlot).2
        (ParamSweeper.mk [] [combA, combB] [] []) 9 [] combB) ∧
    stateFreeSlot.pulls = [combA] :=
  ⟨rfl, rfl, rfl⟩

/-- C7 amended: a combination is pulled only after the slot-wait loop exits
normally, which guarantees at least `n_nodes` available host slots (so a free
slot whenever `n_nodes ≥ 1`); job aliveness is not part of that guard.  When
slots are short, every pass of the wait loop sleeps a fixed interval before
re-checking — a polling wait, not a busy-spin. -/
theorem C7_pull_guard (o : Oracle) (nN wF dF fuel : Nat)
    (st st2 stw stw' : LoopState) (b : Bool)
    (h : dispatchIter o nN wF dF st = .cont st2)
    (hn : ¬ nN ≤ stw.availableHosts.length)
    (hww : waitLoop o nN fuel stw = some (stw', b)) :
    waitOk nN (waitLoop o nN wF (callAlive o st).2) = true ∧
    stw.sleeps5 < stw'.sleeps5 := by
  obtain ⟨st1, comb, sw, hd, rest, hw, hg, hh, rfl⟩ := dispatchIter_cont_inv h
  refine ⟨?_, (waitLoop_sleeps hww).2 hn⟩
  rw [hw]
  simp [waitOk, waitLoop_false_post hw]

/-- Witness for C7's amended claim at the concrete free-slot dispatch and the
concrete slot-starved wait. -/
theorem C7_pull_guard_witness :
    waitOk 1 (waitLoop oracleDead 1 5 (callAlive oracleDead stateFreeSlot).2) = true ∧
    stateWaitDead.sleeps5 < stateWaitDeadWaitFinal.sleeps5 :=
  C7_pull_guard oracleDead 1 5 5 5 stateFreeSlot
    (spawnState (callAlive oracleDead stateFreeSlot).2
      (ParamSweeper.mk [] [combA, combB] [] []) 9 [] combB)
    stateWaitDead stateWaitDeadWaitFinal true rfl (by decide) rfl

/-- C8: slots are reused FIFO — a dispatched combination is assigned the head
of `available_hosts` and the tail remains as the pool, while a slot reclaimed
from a terminated worker is appended at the tail. -/
theorem C8_fifo_slots (o : Oracle) (nN wF dF : Nat) (st st1 : LoopState)
    (comb : Comb) (sw : ParamSweeper) (hd : Nat) (rest : List Nat)
    (hthreads : st.threads ≠ [])
    (hw : waitLoop o nN wF (callAlive o st).2 = some (st1, false))
    (hg : st1.sweeper.get_next = some (comb, sw))
    (hh : st1.availableHosts = hd :: rest) :
    dispatchIter o nN wF dF st = .cont (spawnState st1 sw hd rest comb) ∧
    (spawnState st1 sw hd rest comb).availableHosts = rest ∧
    (spawnState st1 sw hd rest comb).threads =
      st1.threads ++ [⟨st1.nextTid, hd, comb⟩] ∧
    (reclaimDead o st1).availableHosts =
      st1.availableHosts ++ (deadWorkers o st1).map (fun w => w.host) :=
  ⟨dispatchIter_cont_of_next hthreads hw hg hh, rfl, rfl, rfl⟩

/-- Witness for C8 at the concrete free-slot dispatch: host 9 is the head of
the pool and is assigned; the pool becomes the tail. -/
theorem C8_fifo_slots_witness :
    dispatchIter oracleFalse 1 5 5 stateFreeSlot =
      .cont (spawnState (callAlive oracleFalse stateFreeSlot).2
        (ParamSweeper.mk [] [combA, combB] [] []) 9 [] combB) ∧
    (spawnState (callAlive oracleFalse stateFreeSlot).2
      (ParamSweeper.mk [] [combA, combB] [] []) 9 [] combB).availableHosts = [] ∧
    (spawnState (callAlive oracleFalse stateFreeSlot).2
      (ParamSweeper.mk [] [combA, combB] [] []) 9 [] combB).threads =
      (callAlive oracleFalse stateFreeSlot).2.threads ++ [⟨1, 9, combB⟩] ∧
    (reclaimDead oracleFalse (callAlive oracleFalse stateFreeSlot).2).availableHosts =
      (callAlive oracleFalse stateFreeSlot).2.availableHosts ++
        (deadWorkers oracleFalse (callAlive oracleFalse stateFreeSlot).2).map
          (fun w => w.host) :=
  C8_fifo_slots oracleFalse 1 5 5 stateFreeSlot
    (callAlive oracleFalse stateFreeSlot).2 combB
    (ParamSweeper.mk [] [combA, combB] [] []) 9 [] (by decide) rfl rfl rfl

/-- C9: once `get_next` finds the remaining set empty, the dispatch loop
drains: it returns via the drain loop, whose result has no registered worker
threads left, and it sleeps a fixed interval between checks while workers are
still in progress; moreover, whenever every `is_job_alive()` call answers
true, any result of the whole dispatch loop has an empty thread set — the
loop returns only after every worker has reported. -/
theorem C9_drain_until_reported (o : Oracle) (nN wF dF : Nat)
    (st st1 st2 : LoopState)
    (hthreads : st.threads ≠ [])
    (hw : waitLoop o nN wF (callAlive o st).2 = some (st1, false))
    (hr : st1.sweeper.remaining = [])
    (hd : drainLoop o dF st1 = some st2) :
    dispatchIter o nN wF dF st = .exit st2 ∧
    st2.threads = [] ∧
    (st1.threads ≠ [] → st1.sleeps20 < st2.sleeps20) ∧
    (∀ fuel stx stx', (∀ n, o.aliveSeq n = true) →
      dispatchLoop o nN wF dF fuel stx = some stx' → stx'.threads = []) :=
  ⟨dispatchIter_exit_drain hthreads hw hr hd, drainLoop_threads hd,
   fun hn => (drainLoop_sleeps hd).2 hn,
   fun fuel stx stx' halive hloop => dispatchLoop_alive_threads halive hloop⟩

/-- Witness for C9 at the concrete drain scenario: the loop exits with no
thread left after two drain sleeps. -/
theorem C9_drain_until_reported_witness :
    dispatchIter oracleDrain 1 5 5 stateDrain = .exit stateDrainFinal ∧
    stateDrainFinal.threads = [] ∧
    (callAlive oracleDrain stateDrain).2.sleeps20 < stateDrainFinal.sleeps20 ∧
    stateDrainFinal.threads = [] := by
  have h := C9_drain_until_reported oracleDrain 1 5 5 stateDrain
    (callAlive oracleDrain stateDrain).2 stateDrainFinal (by decide) rfl rfl rfl
  exact ⟨h.1, h.2.1, h.2.2.1 (by decide),
    h.2.2.2 1 stateDrain stateDrainFinal (fun n => rfl) (by rw [dispatchLoop, h.1])⟩
